import Mathlib

/-!
A shallow embedding, in Lean 4, of the audit pipeline of the Nexalyze
repository, and proofs of the specified properties.

Sources embedded:
* `src/app/api/audit/route.ts` — the `POST` handler, `runPageSpeedInsights`
  (its pure extraction part), `generateAISuggestions` and
  `generateFallbackSuggestions`.
* `src/modules/Analysis/index.tsx` — `getScoreColor`, `formatSuggestions`
  (cleanup, sectioning, titles) and `renderInlineFormatting`.

JavaScript numbers are modelled as rationals (`ℚ`), JS strings as `String`,
absent/undefined values as `Option`, and each regex used by the code as an
explicit scanner with the exact greedy semantics of the original pattern.
The two outbound HTTP calls are modelled by oracles (`PSIOutcome`,
`GenOutcome`) describing every observable result of the call.
-/

/-- JS whitespace class `\s` (restricted to the ASCII whitespace actually
appearing in the processed texts). -/
def jsWS (c : Char) : Bool :=
  c == ' ' || c == '\t' || c == '\n' || c == '\r' || c == '\x0b' || c == '\x0c'

/-- JS `x || d` for an optional number `x` (`undefined`, `0` and `NaN` are
falsy; `NaN` does not occur in the modelled data). -/
def jsOrNum (x : Option ℚ) (d : ℚ) : ℚ :=
  match x with
  | some v => if v = 0 then d else v
  | none => d

/-- JS `x || d` for an optional string `x` (`undefined` and `""` are falsy). -/
def jsOrStr (x : Option String) (d : String) : String :=
  match x with
  | some s => if s = "" then d else s
  | none => d

/-- JS `x > b` for an optional number `x` (`undefined > b` is `false`). -/
def jsGtNum (x : Option ℚ) (b : ℚ) : Bool :=
  match x with
  | some v => decide (b < v)
  | none => false

/-- JS `x < b` for an optional number `x` (`undefined < b` is `false`). -/
def jsLtNum (x : Option ℚ) (b : ℚ) : Bool :=
  match x with
  | some v => decide (v < b)
  | none => false

/-- JS `Math.round` on a rational: round half towards positive infinity. -/
def jsRound (x : ℚ) : ℤ := ⌊x + 1/2⌋

/-- The decimal digit character for `d < 10`. -/
def jsDigitChar : ℕ → Char
  | 0 => '0' | 1 => '1' | 2 => '2' | 3 => '3' | 4 => '4'
  | 5 => '5' | 6 => '6' | 7 => '7' | 8 => '8' | _ + 9 => '9'

/-- Decimal digits of `n`, most significant first, accumulator form. -/
def natReprAux (n : ℕ) (acc : List Char) : List Char :=
  if h : n < 10 then jsDigitChar n :: acc
  else natReprAux (n / 10) (jsDigitChar (n % 10) :: acc)
termination_by n
decreasing_by exact Nat.div_lt_self (by omega) (by omega)

/-- Decimal representation of a natural number, as characters. -/
def natReprL (n : ℕ) : List Char := natReprAux n []

/-- Decimal representation of an integer, as characters (JS number→string
coercion of an integral value). -/
def intReprL (i : ℤ) : List Char :=
  if i < 0 then '-' :: natReprL i.natAbs else natReprL i.natAbs

/-- Decimal representation of an integer, as a string. -/
def intRepr (i : ℤ) : String := ⟨intReprL i⟩

/-- Decimal representation of a natural number, as a string. -/
def natRepr (n : ℕ) : String := ⟨natReprL n⟩

/-- Characters a rendered integer may consist of: digits and the minus sign. -/
def isDigitSeg (c : Char) : Bool := c.isDigit || c == '-'

/-! ## Data model (`route.ts`, interface `LighthouseResult`) -/

/-- The `metrics` field of `LighthouseResult`. -/
structure AuditMetrics where
  firstContentfulPaint : ℚ
  largestContentfulPaint : ℚ
  firstInputDelay : ℚ
  cumulativeLayoutShift : ℚ
  speedIndex : ℚ
  totalBlockingTime : ℚ
deriving DecidableEq

/-- The `pageInfo` field of `LighthouseResult`. -/
structure PageInfo where
  title : String
  description : String
  screenshot : String
deriving DecidableEq

/-- An element of the `opportunities` field of `LighthouseResult`. -/
structure Opportunity where
  id : String
  title : String
  description : String
  savings : ℚ
deriving DecidableEq

/-- An element of the `diagnostics` field of `LighthouseResult`. -/
structure Diagnostic where
  id : String
  title : String
  description : String
  displayValue : String
deriving DecidableEq

/-- The `LighthouseResult` interface of `route.ts`. -/
structure LighthouseResult where
  performance : ℚ
  accessibility : ℚ
  bestPractices : ℚ
  seo : ℚ
  metrics : AuditMetrics
  pageInfo : PageInfo
  opportunities : List Opportunity
  diagnostics : List Diagnostic
deriving DecidableEq

/-! ## Upstream PageSpeed response shape (the fields `runPageSpeedInsights`
reads from the parsed JSON body) -/

/-- One entry of `lighthouseResult.audits` (only the fields the code reads;
every field the upstream service may omit is an `Option`). -/
structure AuditEntry where
  numericValue : Option ℚ
  detailsType : Option String
  scoreDisplayMode : Option String
  score : Option ℚ
  title : String
  description : String
  displayValue : Option String
deriving DecidableEq

/-- `lighthouseResult.categories`, each category flattened to its optional
`score` (`categories.x?.score`). -/
structure PSICategories where
  performance : Option ℚ
  accessibility : Option ℚ
  bestPractices : Option ℚ
  seo : Option ℚ
deriving DecidableEq

/-- A successfully parsed upstream audit body. `audits` is an association
list in upstream iteration order (`Object.entries`). -/
structure PSIResponse where
  categories : PSICategories
  audits : List (String × AuditEntry)
  fullPageScreenshotData : Option String
deriving DecidableEq

/-! ## Extraction (`runPageSpeedInsights`, success path, lines 133–188) -/

/-- Core Web Vitals extraction: `audits[k]?.numericValue || 0` per metric. -/
def extractMetrics (audits : List (String × AuditEntry)) : AuditMetrics where
  firstContentfulPaint :=
    jsOrNum ((audits.lookup "first-contentful-paint").bind (·.numericValue)) 0
  largestContentfulPaint :=
    jsOrNum ((audits.lookup "largest-contentful-paint").bind (·.numericValue)) 0
  firstInputDelay :=
    jsOrNum ((audits.lookup "max-potential-fid").bind (·.numericValue)) 0
  cumulativeLayoutShift :=
    jsOrNum ((audits.lookup "cumulative-layout-shift").bind (·.numericValue)) 0
  speedIndex :=
    jsOrNum ((audits.lookup "speed-index").bind (·.numericValue)) 0
  totalBlockingTime :=
    jsOrNum ((audits.lookup "total-blocking-time").bind (·.numericValue)) 0

/-- Page info extraction: `displayValue || placeholder`, screenshot
`fullPageScreenshot?.screenshot?.data || ""`. -/
def extractPageInfo (audits : List (String × AuditEntry))
    (shot : Option String) : PageInfo where
  title := jsOrStr ((audits.lookup "document-title").bind (·.displayValue)) "No title"
  description :=
    jsOrStr ((audits.lookup "meta-description").bind (·.displayValue)) "No description"
  screenshot := jsOrStr shot ""

/-- The opportunity filter: `audit.details?.type === "opportunity" &&
audit.numericValue > 0`. -/
def oppQualifies (a : AuditEntry) : Bool :=
  (a.detailsType == some "opportunity") && jsGtNum a.numericValue 0

/-- The opportunity projection `{id: key, title, description, savings}`. -/
def mkOpportunity (kv : String × AuditEntry) : Opportunity where
  id := kv.1
  title := kv.2.title
  description := kv.2.description
  savings := kv.2.numericValue.getD 0

/-- The diagnostic filter: `audit.scoreDisplayMode === "binary" &&
audit.score < 1`. -/
def diagQualifies (a : AuditEntry) : Bool :=
  (a.scoreDisplayMode == some "binary") && jsLtNum a.score 1

/-- The diagnostic projection `{id: key, title, description, displayValue}`
with `displayValue || ""`. -/
def mkDiagnostic (kv : String × AuditEntry) : Diagnostic where
  id := kv.1
  title := kv.2.title
  description := kv.2.description
  displayValue := jsOrStr kv.2.displayValue ""

/-- `Object.entries(audits).filter(...).map(...).slice(0, 10)` for
opportunities. -/
def extractOpportunities (audits : List (String × AuditEntry)) : List Opportunity :=
  (((audits.filter fun kv => oppQualifies kv.2).map mkOpportunity).take 10)

/-- `Object.entries(audits).filter(...).map(...).slice(0, 10)` for
diagnostics. -/
def extractDiagnostics (audits : List (String × AuditEntry)) : List Diagnostic :=
  (((audits.filter fun kv => diagQualifies kv.2).map mkDiagnostic).take 10)

/-- The object returned by `runPageSpeedInsights` on success
(`categories.x?.score || 0` and the extracted parts). -/
def extractLighthouseResult (resp : PSIResponse) : LighthouseResult where
  performance := jsOrNum resp.categories.performance 0
  accessibility := jsOrNum resp.categories.accessibility 0
  bestPractices := jsOrNum resp.categories.bestPractices 0
  seo := jsOrNum resp.categories.seo 0
  metrics := extractMetrics resp.audits
  pageInfo := extractPageInfo resp.audits resp.fullPageScreenshotData
  opportunities := extractOpportunities resp.audits
  diagnostics := extractDiagnostics resp.audits

/-! ## Fallback suggestion generator (`generateFallbackSuggestions`,
lines 329–371). The repository file stores the section headers with
mojibake characters (a double-encoded emoji); the embedded strings
reproduce those characters exactly. -/

/-- The fixed first line (plus blank line) of every fallback output. -/
def fbHeader : String := "# Website Audit Results\n\n"

/-- The performance section header line. -/
def perfHdr : String := "## ðŸš€ Performance Improvements\n\n"

/-- Fixed text of the LCP bullet before the interpolated number. -/
def lcpPre : String := "- **Optimize Largest Contentful Paint**: Your LCP is "

/-- Fixed text of the LCP bullet after the interpolated number. -/
def lcpSuf : String := "ms. Optimize your largest image or text block.\n"

/-- Fixed text of the blocking-time bullet before the interpolated number. -/
def tbtPre : String := "- **Reduce JavaScript Blocking**: "

/-- Fixed text of the blocking-time bullet after the interpolated number. -/
def tbtSuf : String := "ms of blocking time. Minimize and defer non-critical JS.\n"

/-- The two unconditional closing bullets of the performance section. -/
def perfTail : String :=
  "- Compress images and use modern formats (WebP, AVIF)\n- Enable browser caching and CDN\n\n"

/-- The performance section, conditioned on the two metric thresholds. -/
def perfBlock (m : AuditMetrics) : String :=
  perfHdr
    ++ (if m.largestContentfulPaint > 2500 then
          lcpPre ++ intRepr (jsRound m.largestContentfulPaint) ++ lcpSuf
        else "")
    ++ (if m.totalBlockingTime > 200 then
          tbtPre ++ intRepr (jsRound m.totalBlockingTime) ++ tbtSuf
        else "")
    ++ perfTail

/-- The SEO section (fixed text). -/
def seoBlock : String :=
  "## ðŸ” SEO Enhancements\n\n- Optimize meta descriptions and title tags\n- Improve internal linking structure\n- Add structured data markup\n\n"

/-- The accessibility section (fixed text). -/
def accBlock : String :=
  "## â™¿ Accessibility Improvements\n\n- Add alt text to all images\n- Ensure proper color contrast ratios\n- Make all interactive elements keyboard accessible\n\n"

/-- `generateFallbackSuggestions`: header plus the three threshold-gated
sections, concatenated in source order. -/
def generateFallbackSuggestions (r : LighthouseResult) : String :=
  fbHeader
    ++ (if r.performance < 9/10 then perfBlock r.metrics else "")
    ++ (if r.seo < 9/10 then seoBlock else "")
    ++ (if r.accessibility < 9/10 then accBlock else "")

/-! ## AI suggestion call (`generateAISuggestions`, lines 202–247) -/

/-- Every observable outcome of the outbound text-generation call:
* `fetchError` — `fetch` itself throws (network error);
* `httpError` — `!response.ok`, so the code throws after reading the body;
* `parseError` — `response.json()` throws (body is not valid JSON);
* `parsed c` — the body parsed; `c` is the value of
  `data.choices?.[0]?.message?.content` (`none` when the chain is absent
  or not a string). -/
inductive GenOutcome where
  | fetchError
  | httpError
  | parseError
  | parsed (content : Option String)
deriving DecidableEq

/-- The placeholder returned when a parsed body lacks usable content. -/
def aiPlaceholder : String := "Unable to generate AI suggestions at this time."

/-- `generateAISuggestions`: the `try` block returns
`data.choices?.[0]?.message?.content || placeholder`; every thrown error is
caught and answered with the fallback generator. -/
def generateAISuggestions (o : GenOutcome) (r : LighthouseResult) : String :=
  match o with
  | .fetchError => generateFallbackSuggestions r
  | .httpError => generateFallbackSuggestions r
  | .parseError => generateFallbackSuggestions r
  | .parsed c => jsOrStr c aiPlaceholder

/-! ## The `POST` handler (lines 36–83) -/

/-- Result of `await request.json()` and destructuring `{ url }`:
either the body failed to parse, or it parsed and `url` is the (possibly
absent) string field. -/
inductive BodyParse where
  | parseFail
  | parsed (url : Option String)
deriving DecidableEq

/-- Every observable outcome of `runPageSpeedInsights`:
* `noKey` — the API key is not configured, it throws before any fetch;
* `httpFail` — the fetch was issued and failed or returned non-success or
  an unusable body, so the function throws;
* `success resp` — the fetch succeeded with parsed body `resp`. -/
inductive PSIOutcome where
  | noKey
  | httpFail
  | success (resp : PSIResponse)
deriving DecidableEq

/-- The observable part of the handler's HTTP response, plus the list of
outbound network calls issued while producing it. -/
structure POSTResult where
  status : ℕ
  error : Option String
  result : Option LighthouseResult
  suggestions : Option String
  outboundCalls : List String
deriving DecidableEq

/-- The `POST` handler: body parse, `!url` check, URL validation
(`new URL(url)` modelled by the oracle `validURL`), then the audit call and
the suggestion call; any error thrown by the audit path is answered with
the generic 500. -/
def POST (validURL : String → Bool) (body : BodyParse)
    (psi : PSIOutcome) (gen : GenOutcome) : POSTResult :=
  match body with
  | .parseFail =>
    ⟨500, some "Failed to audit website. Please try again.", none, none, []⟩
  | .parsed u =>
    match u with
    | none => ⟨400, some "URL is required", none, none, []⟩
    | some url =>
      if url = "" then ⟨400, some "URL is required", none, none, []⟩
      else if !validURL url then ⟨400, some "Invalid URL format", none, none, []⟩
      else
        match psi with
        | .noKey => ⟨500, some "Failed to audit website. Please try again.", none, none, []⟩
        | .httpFail =>
          ⟨500, some "Failed to audit website. Please try again.", none, none, ["pagespeed"]⟩
        | .success resp =>
          let lr := extractLighthouseResult resp
          ⟨200, none, some lr, some (generateAISuggestions gen lr),
            ["pagespeed", "openrouter"]⟩

/-! ## Score classification (`Analysis/index.tsx`, lines 195–211) -/

/-- `getScoreColor`: threshold classification of a numeric score. -/
def getScoreColor (score : ℚ) : String :=
  if score ≥ 90 then "text-green-600"
  else if score ≥ 70 then "text-yellow-600"
  else "text-red-600"

/-- Rank of a classification tier (poor = 0, fair = 1, good = 2), for
stating monotonicity. -/
def tierRank (c : String) : ℕ :=
  if c = "text-green-600" then 2 else if c = "text-yellow-600" then 1 else 0

/-- Substring containment (`pat` occurs contiguously in `s`), the sense in
which an output "contains a section". -/
def containsSec (s pat : String) : Prop := pat.data <:+: s.data

instance containsSecDec (s pat : String) : Decidable (containsSec s pat) :=
  inferInstanceAs (Decidable (pat.data <:+: s.data))

/-! ## Suggestion-text formatting (`formatSuggestions`, lines 57–82).
Each regex of the source is embedded as a scanner with the same leftmost,
greedy matching semantics. -/

/-- JS `String.prototype.trim` on the character list. -/
def jsTrim (l : List Char) : List Char :=
  (((l.dropWhile jsWS).reverse).dropWhile jsWS).reverse

/-- Consume up to `n` further `#` characters (for the `#{1,6}` part of the
header regex, after the first `#`). -/
def dropHashes : ℕ → List Char → List Char
  | 0, l => l
  | _ + 1, [] => []
  | n + 1, c :: rest => if c = '#' then dropHashes n rest else c :: rest

/-- Global replacement of `/#{1,6}\s*/` by the empty string: at each `#`,
greedily consume up to six `#` then all whitespace, and continue after the
match. -/
def stripHash (l : List Char) : List Char :=
  match l with
  | [] => []
  | c :: rest =>
    if c = '#' then stripHash ((dropHashes 5 rest).dropWhile jsWS)
    else c :: stripHash rest
termination_by l.length
decreasing_by
  · have hle : ∀ (n : ℕ) (xs : List Char), (dropHashes n xs).length ≤ xs.length := by
      intro n
      induction n with
      | zero => intro xs; simp [dropHashes]
      | succ n ih =>
        intro xs
        cases xs with
        | nil => simp [dropHashes]
        | cons d r =>
          simp only [dropHashes]
          split
          · exact le_trans (ih r) (by simp)
          · simp
    have h2 : ((dropHashes 5 rest).dropWhile jsWS).length ≤ (dropHashes 5 rest).length :=
      (List.dropWhile_suffix jsWS).length_le
    have h3 := hle 5 rest
    simp only [List.length_cons]
    omega
  · simp only [List.length_cons]
    omega

/-- The closing part `\*{1,2}` of the bold regex: given the captured
content `cont` and the remaining input `r2`, greedily consume one or two
`*`; fail if `cont` is empty or no `*` follows. -/
def boldClose (cont r2 : List Char) : Option (List Char × List Char) :=
  if cont.isEmpty then none
  else
    match r2 with
    | c :: r3 =>
      if c = '*' then
        match r3 with
        | c2 :: r4 => if c2 = '*' then some (cont, r4) else some (cont, r3)
        | [] => some (cont, r3)
      else none
    | [] => none

/-- A match of `/\*{1,2}([^*]+)\*{1,2}/` at the head of `l`: the captured
content and the input after the match, or `none`. -/
def boldMatch (l : List Char) : Option (List Char × List Char) :=
  match l with
  | c1 :: rest =>
    if c1 = '*' then
      match rest with
      | c2 :: rest2 =>
        if c2 = '*' then
          boldClose (rest2.takeWhile fun c => !(c == '*'))
            (rest2.dropWhile fun c => !(c == '*'))
        else
          boldClose (rest.takeWhile fun c => !(c == '*'))
            (rest.dropWhile fun c => !(c == '*'))
      | [] => none
    else none
  | [] => none

/-- Global replacement of `/\*{1,2}([^*]+)\*{1,2}/` by its capture group. -/
def stripBold (l : List Char) : List Char :=
  match l with
  | [] => []
  | c :: rest =>
    match h : boldMatch (c :: rest) with
    | some p => p.1 ++ stripBold p.2
    | none => c :: stripBold rest
termination_by l.length
decreasing_by
  · have hcl : ∀ (ct r2 : List Char) (q : List Char × List Char),
        boldClose ct r2 = some q → q.2.length < r2.length := by
      intro ct r2 q hc
      unfold boldClose at hc
      split at hc
      · simp at hc
      · split at hc
        · split at hc
          · split at hc
            · split at hc
              · simp only [Option.some.injEq] at hc
                subst hc
                simp only [List.length_cons]
                omega
              · simp only [Option.some.injEq] at hc
                subst hc
                simp only [List.length_cons]
                omega
            · simp only [Option.some.injEq] at hc
              subst hc
              simp
          · simp at hc
        · simp at hc
    have key : ∀ (xs : List Char) (q : List Char × List Char),
        boldMatch xs = some q → q.2.length < xs.length := by
      intro xs q hm
      unfold boldMatch at hm
      repeat' split at hm
      all_goals try (simp at hm)
      · rename_i a1 b1 hx1 a0 b0 rest2 hx0
        have h1 := hcl _ _ _ hm
        have h2 : (rest2.dropWhile fun c => !(c == '*')).length ≤ rest2.length :=
          (List.dropWhile_suffix _).length_le
        simp only [List.length_cons]
        omega
      · rename_i a1 b1 hx1 a0 b0 rest2 hx0
        have h1 := hcl _ _ _ hm
        have h2 : ((b0 :: rest2).dropWhile fun c => !(c == '*')).length ≤
            (b0 :: rest2).length := (List.dropWhile_suffix _).length_le
        simp only [List.length_cons] at h1 h2 ⊢
        omega
    exact key _ _ h
  · simp only [List.length_cons]
    omega

/-- Index of the last `'\n'` in a character list, if any. -/
def lastNlIdx : List Char → Option ℕ
  | [] => none
  | c :: rest =>
    match lastNlIdx rest with
    | some i => some (i + 1)
    | none => if c = '\n' then some 0 else none

/-- Length of a match of the separator regex `/\n\s*\n/` at the head of
`l`, if any: a `'\n'`, then (greedily, backtracking so a final `'\n'`
remains) whitespace, then a `'\n'`. -/
def sepLen (l : List Char) : Option ℕ :=
  match l with
  | c :: rest =>
    if c = '\n' then (lastNlIdx (rest.takeWhile jsWS)).map (fun i => i + 2)
    else none
  | [] => none

/-- JS `String.prototype.split(/\n\s*\n/)`: scan for separator matches,
cutting a piece at each one. -/
def splitGo (l : List Char) (cur : List Char) : List (List Char) :=
  match h : sepLen l with
  | some k => cur.reverse :: splitGo (l.drop k) []
  | none =>
    match l with
    | [] => [cur.reverse]
    | c :: rest => splitGo rest (c :: cur)
termination_by l.length
decreasing_by
  · have hk : 1 ≤ k := by
      unfold sepLen at h
      split at h
      · split at h
        · obtain ⟨i, -, hi⟩ := Option.map_eq_some'.mp h
          omega
        · simp at h
      · simp at h
    have hl : 0 < l.length := by
      unfold sepLen at h
      split at h
      · simp
      · simp at h
    rw [List.length_drop]
    omega
  · simp only [List.length_cons]
    omega

/-- The sections: split on the blank-line regex, keep pieces with nonempty
trim (`.filter((section) => section.trim())`). -/
def splitSections (l : List Char) : List (List Char) :=
  (splitGo l []).filter fun s => !(jsTrim s).isEmpty

/-- JS `String.prototype.split("\n")`, accumulator form. -/
def splitNlGo : List Char → List Char → List (List Char)
  | [], cur => [cur.reverse]
  | c :: rest, cur =>
    if c = '\n' then cur.reverse :: splitNlGo rest []
    else splitNlGo rest (c :: cur)

/-- JS `String.prototype.split("\n")`. -/
def splitNl (l : List Char) : List (List Char) := splitNlGo l []

/-- Does a (trimmed) line start with a bullet marker, `-` or `•`? -/
def startsBullet (l : List Char) : Bool :=
  match l.head? with
  | some c => c == '-' || c == '•'
  | none => false

/-- One rendered section: its heading and its body lines. -/
structure RSection where
  title : String
  body : List String
deriving DecidableEq

/-- The per-section transform of `formatSuggestions`: nonempty-trim lines;
the first line's trim is the title and the rest the body, unless that trim
starts with a bullet, in which case the title is synthesized from the
section index and all lines are body. A section with no surviving lines is
dropped (`return null`). -/
def mkRSection (i : ℕ) (sec : List Char) : Option RSection :=
  let lines := (splitNl sec).filter fun ln => !(jsTrim ln).isEmpty
  match lines with
  | [] => none
  | l0 :: rest =>
    if startsBullet (jsTrim l0) then
      some ⟨"Recommendations " ++ natRepr (i + 1), lines.map fun ln => ⟨ln⟩⟩
    else
      some ⟨⟨jsTrim l0⟩, rest.map fun ln => ⟨ln⟩⟩

/-- `formatSuggestions`: strip header markers, strip bold markers, trim,
split into sections, transform each with its index, drop the `null`s. -/
def formatSuggestions (s : String) : List RSection :=
  ((splitSections (jsTrim (stripBold (stripHash s.data)))).enum.map
    fun p => mkRSection p.1 p.2).filterMap id

/-! ## Inline link rendering (`renderInlineFormatting`, lines 111–146) -/

/-- A rendered fragment of a line: plain text, or a link rendered with its
label as the visible text and its destination as the `href`. -/
inductive RPart where
  | text (s : String)
  | link (label dest : String)
deriving DecidableEq

/-- A match of `/\[([^\]]+)\]\(([^)]+)\)/` at the head of `l`: the label,
the destination, and the input after the match. -/
def linkMatch (l : List Char) : Option (List Char × List Char × List Char) :=
  match l with
  | c :: r =>
    if c = '[' then
      if (r.takeWhile fun x => !(x == ']')).isEmpty then none
      else
        match r.dropWhile fun x => !(x == ']') with
        | d :: r2 =>
          if d = ']' then
            match r2 with
            | e :: r3 =>
              if e = '(' then
                if (r3.takeWhile fun x => !(x == ')')).isEmpty then none
                else
                  match r3.dropWhile fun x => !(x == ')') with
                  | f :: r4 =>
                    if f = ')' then
                      some (r.takeWhile fun x => !(x == ']'),
                            r3.takeWhile fun x => !(x == ')'), r4)
                    else none
                  | [] => none
              else none
            | [] => none
          else none
        | [] => none
    else none
  | [] => none

/-- The `exec` loop of `renderInlineFormatting`: pending plain text is
flushed (only if nonempty) before each link part. -/
def scanParts (l : List Char) (pend : List Char) : List RPart :=
  match l with
  | [] => if pend.isEmpty then [] else [.text ⟨pend.reverse⟩]
  | c :: rest =>
    match h : linkMatch (c :: rest) with
    | some t =>
      (if pend.isEmpty then [] else [RPart.text ⟨pend.reverse⟩])
        ++ RPart.link ⟨t.1⟩ ⟨t.2.1⟩ :: scanParts t.2.2 []
    | none => scanParts rest (c :: pend)
termination_by l.length
decreasing_by
  · have key : ∀ (xs : List Char) (t : List Char × List Char × List Char),
        linkMatch xs = some t → t.2.2.length < xs.length := by
      intro xs t hm
      unfold linkMatch at hm
      repeat' split at hm
      all_goals try (simp at hm)
      rename_i x3 cH r hbr hne1 x2 d hd x1 e r3 heq1 he hne2 x0 f r4 heq2 hf
      subst hm
      have s1 : (List.dropWhile (fun x => !(x == ']')) r).length ≤ r.length :=
        (List.dropWhile_suffix _).length_le
      have s2 : (List.dropWhile (fun x => !(x == ')')) r3).length ≤ r3.length :=
        (List.dropWhile_suffix _).length_le
      rw [heq1] at s1
      rw [heq2] at s2
      simp only [List.length_cons] at *
      omega
    exact key _ _ h
  · simp only [List.length_cons]
    omega

/-- `renderInlineFormatting`: the scanned parts, or the raw text when no
link matched anywhere (`parts.length > 0 ? parts : text`). -/
def renderInlineFormatting (s : String) : List RPart :=
  let parts := scanParts s.data []
  if parts.isEmpty then [.text s] else parts

/-- The anchored single replacement `trimmedLine.replace(/^[-•]\s*/, "")`. -/
def bulletStrip (l : List Char) : List Char :=
  match l with
  | c :: rest => if c == '-' || c == '•' then rest.dropWhile jsWS else l
  | [] => []

/-- Rendering of one body line (lines 157–187): trim; a bullet line is
stripped of its marker then inline-formatted, a plain line is
inline-formatted directly. -/
def renderLine (line : String) : List RPart :=
  let t := jsTrim line.data
  if startsBullet t then renderInlineFormatting ⟨bulletStrip t⟩
  else renderInlineFormatting ⟨t⟩

/-- The visible text of rendered parts: plain text, and each link's label. -/
def plainText (ps : List RPart) : String :=
  ps.foldr (fun p acc => (match p with | .text s => s | .link lab _ => lab) ++ acc) ""

/-- The link targets (`href` attributes) of rendered parts, in order. -/
def linkDests (ps : List RPart) : List String :=
  ps.filterMap fun p => match p with | .link _ d => some d | .text _ => none

/-- Bool test for "no blank-line separator match starts anywhere in `l`". -/
def noSepB (l : List Char) : Bool :=
  (List.range l.length).all fun i => (sepLen (l.drop i)).isNone

/-- A "plain block": nonempty, no leading or trailing whitespace, no
blank-line separator inside, and free of the markdown marker characters
(`#`, `*`) the cleanup pass rewrites. -/
def goodBlock (s : String) : Bool :=
  (match s.data.head? with | some c => !jsWS c | none => false)
    && (match s.data.getLast? with | some c => !jsWS c | none => false)
    && noSepB s.data
    && !(s.data.contains '#')
    && !(s.data.contains '*')

/-! ## Helper lemmas: substring containment across interpolated numbers -/

/-- A contiguous pattern free of digit characters cannot straddle a
nonempty all-digit segment: it lies wholly before or wholly after it. -/
theorem infix_split_digits {p a n b : List Char}
    (hp : ∀ c ∈ p, isDigitSeg c = false)
    (hn : ∀ c ∈ n, isDigitSeg c = true) (hne : n ≠ [])
    (h : p <:+: a ++ (n ++ b)) : p <:+: a ∨ p <:+: b := by
  by_cases hpe : p = []
  · subst hpe
    exact Or.inl List.nil_infix
  obtain ⟨s, t, ht⟩ := h
  have hp0 : 0 < p.length := List.length_pos.mpr hpe
  have hn0 : 0 < n.length := List.length_pos.mpr hne
  by_cases h1 : s.length + p.length ≤ a.length
  · left
    have ha : a = s ++ p ++ t.take (a.length - (s ++ p).length) := by
      have ha0 : a = (s ++ p ++ t).take a.length := by
        rw [ht, List.take_append_eq_append_take, List.take_of_length_le (le_refl a.length),
          Nat.sub_self, List.take_zero, List.append_nil]
      conv_lhs => rw [ha0]
      rw [List.take_append_eq_append_take,
        List.take_of_length_le (by simp only [List.length_append]; omega)]
    exact ⟨s, t.take (a.length - (s ++ p).length), ha.symm⟩
  · by_cases h2 : a.length + n.length ≤ s.length
    · right
      have hb : b = s.drop (a.length + n.length) ++ (p ++ t) := by
        have hb0 : b = (s ++ p ++ t).drop (a.length + n.length) := by
          rw [ht, ← List.append_assoc, ← List.length_append a n, List.drop_left]
        conv_lhs => rw [hb0]
        rw [List.append_assoc, List.drop_append_eq_append_drop,
          Nat.sub_eq_zero_of_le h2, List.drop_zero]
      exact ⟨s.drop (a.length + n.length), t, by rw [List.append_assoc]; exact hb.symm⟩
    · exfalso
      push_neg at h1 h2
      set j := max s.length a.length with hj
      have hjs : s.length ≤ j := le_max_left _ _
      have hja : a.length ≤ j := le_max_right _ _
      have hj1 : j < s.length + p.length := by omega
      have hj2 : j < a.length + n.length := by omega
      have hwhole : j < (s ++ p ++ t).length := by
        simp only [List.length_append]
        omega
      have hwhole2 : j < (a ++ (n ++ b)).length := by
        rw [← ht]
        exact hwhole
      have e1 : (s ++ p ++ t)[j] ∈ p := by
        have b1 : j < (s ++ p).length := by
          simp only [List.length_append]
          omega
        rw [List.getElem_append_left b1]
        rw [List.getElem_append_right (show s.length ≤ j by omega)]
        exact List.getElem_mem _
      have e2 : (s ++ p ++ t)[j] ∈ n := by
        have heq : (s ++ p ++ t)[j] = (a ++ (n ++ b))[j] := by
          congr 1
        rw [heq]
        rw [List.getElem_append_right (show a.length ≤ j by omega)]
        rw [List.getElem_append_left (show j - a.length < n.length by omega)]
        exact List.getElem_mem _
      have hcontra := hn _ e2
      rw [hp _ e1] at hcontra
      exact Bool.false_ne_true hcontra

theorem jsDigitChar_digit (d : ℕ) : isDigitSeg (jsDigitChar d) = true := by
  rcases d with _|_|_|_|_|_|_|_|_|d
  all_goals try decide
  show isDigitSeg (jsDigitChar (d + 9)) = true
  rw [show jsDigitChar (d + 9) = '9' from rfl]
  decide

theorem natReprAux_digits : ∀ (n : ℕ) (acc : List Char),
    (∀ c ∈ acc, isDigitSeg c = true) → ∀ c ∈ natReprAux n acc, isDigitSeg c = true := by
  intro n
  induction n using Nat.strong_induction_on with
  | _ n ih =>
    intro acc hacc c hc
    rw [natReprAux] at hc
    split at hc
    · rcases List.mem_cons.mp hc with h | h
      · rw [h]; exact jsDigitChar_digit n
      · exact hacc c h
    · refine ih (n / 10) (Nat.div_lt_self (by omega) (by omega)) _ ?_ c hc
      intro x hx
      rcases List.mem_cons.mp hx with h | h
      · rw [h]; exact jsDigitChar_digit (n % 10)
      · exact hacc x h

theorem natReprAux_ne_nil : ∀ (n : ℕ) (acc : List Char), natReprAux n acc ≠ [] := by
  intro n
  induction n using Nat.strong_induction_on with
  | _ n ih =>
    intro acc
    rw [natReprAux]
    split
    · simp
    · exact ih (n / 10) (Nat.div_lt_self (by omega) (by omega)) _

theorem intReprL_digits (i : ℤ) : ∀ c ∈ intReprL i, isDigitSeg c = true := by
  intro c hc
  unfold intReprL at hc
  split at hc
  · rcases List.mem_cons.mp hc with h | h
    · rw [h]; decide
    · exact natReprAux_digits _ _ (by simp) c h
  · exact natReprAux_digits _ _ (by simp) c hc

theorem intReprL_ne_nil (i : ℤ) : intReprL i ≠ [] := by
  unfold intReprL
  split
  · simp
  · exact natReprAux_ne_nil _ _

theorem infix_appL {p a b : List Char} (h : p <:+: a) : p <:+: a ++ b := by
  obtain ⟨s, t, hst⟩ := h
  exact ⟨s, t ++ b, by rw [← hst]; simp [List.append_assoc]⟩

theorem infix_appR {p a b : List Char} (h : p <:+: b) : p <:+: a ++ b := by
  obtain ⟨s, t, hst⟩ := h
  exact ⟨a ++ s, t, by rw [← hst]; simp [List.append_assoc]⟩

theorem not_infix_digit3 {p A B : List Char} (i : ℤ)
    (hp : ∀ c ∈ p, isDigitSeg c = false)
    (hA : ¬ p <:+: A) (hB : ¬ p <:+: B) : ¬ p <:+: A ++ (intReprL i ++ B) := by
  intro h
  rcases infix_split_digits hp (intReprL_digits i) (intReprL_ne_nil i) h with h1 | h1
  · exact hA h1
  · exact hB h1

theorem intRepr_data (i : ℤ) : (intRepr i).data = intReprL i := rfl

theorem data_nil : ("" : String).data = [] := rfl

/-! ## Fallback generator: structural facts -/

theorem fb_data_prefix (r : LighthouseResult) :
    fbHeader.data <+: (generateFallbackSuggestions r).data := by
  simp only [generateFallbackSuggestions, String.data_append, List.append_assoc]
  exact List.prefix_append _ _

theorem fb_ne_empty (r : LighthouseResult) : generateFallbackSuggestions r ≠ "" := by
  intro h
  have hp := fb_data_prefix r
  rw [h] at hp
  have hlen := hp.length_le
  revert hlen
  decide

theorem fb_ne_placeholder (r : LighthouseResult) :
    generateFallbackSuggestions r ≠ aiPlaceholder := by
  intro h
  have hp := fb_data_prefix r
  rw [h] at hp
  obtain ⟨t, ht⟩ := hp
  have h2 := congrArg (List.take fbHeader.data.length) ht
  rw [List.take_left] at h2
  exact absurd h2 (by decide)

theorem fb_depends (r r' : LighthouseResult)
    (h1 : r.performance = r'.performance) (h2 : r.seo = r'.seo)
    (h3 : r.accessibility = r'.accessibility)
    (h4 : r.metrics.largestContentfulPaint = r'.metrics.largestContentfulPaint)
    (h5 : r.metrics.totalBlockingTime = r'.metrics.totalBlockingTime) :
    generateFallbackSuggestions r = generateFallbackSuggestions r' := by
  simp only [generateFallbackSuggestions, perfBlock, h1, h2, h3, h4, h5]

set_option maxRecDepth 100000 in
theorem fb_perf_iff (r : LighthouseResult) :
    containsSec (generateFallbackSuggestions r) "Performance Improvements"
      ↔ r.performance < 9/10 := by
  constructor
  · intro h
    by_contra hp
    revert h
    simp only [containsSec, generateFallbackSuggestions, String.data_append, data_nil,
      if_neg hp, List.append_assoc, List.append_nil, List.nil_append]
    by_cases hs : r.seo < 9/10 <;> by_cases ha : r.accessibility < 9/10 <;>
      simp only [hs, ha, ite_true, ite_false, String.data_append, data_nil,
        List.append_assoc, List.append_nil, List.nil_append] <;> decide
  · intro hp
    simp only [containsSec, generateFallbackSuggestions, perfBlock, String.data_append,
      if_pos hp, List.append_assoc]
    apply infix_appR
    apply infix_appL
    decide

set_option maxRecDepth 100000 in
theorem fb_seo_iff (r : LighthouseResult) :
    containsSec (generateFallbackSuggestions r) "SEO Enhancements" ↔ r.seo < 9/10 := by
  constructor
  · intro h
    by_contra hs
    revert h
    simp only [containsSec, generateFallbackSuggestions, perfBlock, String.data_append,
      data_nil, if_neg hs, intRepr_data, List.append_assoc, List.append_nil,
      List.nil_append]
    by_cases hp : r.performance < 9/10
    · simp only [if_pos hp, String.data_append, List.append_assoc]
      by_cases hl : r.metrics.largestContentfulPaint > 2500 <;>
        by_cases ht : r.metrics.totalBlockingTime > 200 <;>
        by_cases ha : r.accessibility < 9/10 <;>
        simp only [hl, ht, ha, ite_true, ite_false, String.data_append,
          data_nil, List.append_assoc, List.append_nil, List.nil_append, intRepr_data]
      · rw [← List.append_assoc, ← List.append_assoc]
        apply not_infix_digit3
        · decide
        · decide
        · rw [← List.append_assoc]
          apply not_infix_digit3
          · decide
          · decide
          · decide
      · rw [← List.append_assoc, ← List.append_assoc]
        apply not_infix_digit3
        · decide
        · decide
        · rw [← List.append_assoc]
          apply not_infix_digit3
          · decide
          · decide
          · decide
      · rw [← List.append_assoc, ← List.append_assoc]
        apply not_infix_digit3
        · decide
        · decide
        · decide
      · rw [← List.append_assoc, ← List.append_assoc]
        apply not_infix_digit3
        · decide
        · decide
        · decide
      · rw [← List.append_assoc, ← List.append_assoc]
        apply not_infix_digit3
        · decide
        · decide
        · decide
      · rw [← List.append_assoc, ← List.append_assoc]
        apply not_infix_digit3
        · decide
        · decide
        · decide
      · decide
      · decide
    · simp only [if_neg hp, data_nil, List.nil_append]
      by_cases ha : r.accessibility < 9/10
      · simp only [if_pos ha]
        decide
      · simp only [if_neg ha]
        decide
  · intro hs
    simp only [containsSec, generateFallbackSuggestions, String.data_append, if_pos hs,
      List.append_assoc]
    apply infix_appR
    apply infix_appR
    apply infix_appL
    decide

set_option maxRecDepth 100000 in
theorem fb_acc_iff (r : LighthouseResult) :
    containsSec (generateFallbackSuggestions r) "Accessibility Improvements"
      ↔ r.accessibility < 9/10 := by
  constructor
  · intro h
    by_contra ha
    revert h
    simp only [containsSec, generateFallbackSuggestions, perfBlock, String.data_append,
      data_nil, if_neg ha, intRepr_data, List.append_assoc, List.append_nil,
      List.nil_append]
    by_cases hp : r.performance < 9/10
    · simp only [if_pos hp, String.data_append, List.append_assoc]
      by_cases hl : r.metrics.largestContentfulPaint > 2500 <;>
        by_cases ht : r.metrics.totalBlockingTime > 200 <;>
        by_cases hs : r.seo < 9/10 <;>
        simp only [hl, ht, hs, ite_true, ite_false, String.data_append,
          data_nil, List.append_assoc, List.append_nil, List.nil_append, intRepr_data]
      · rw [← List.append_assoc, ← List.append_assoc]
        apply not_infix_digit3
        · decide
        · decide
        · rw [← List.append_assoc]
          apply not_infix_digit3
          · decide
          · decide
          · decide
      · rw [← List.append_assoc, ← List.append_assoc]
        apply not_infix_digit3
        · decide
        · decide
        · rw [← List.append_assoc]
          apply not_infix_digit3
          · decide
          · decide
          · decide
      · rw [← List.append_assoc, ← List.append_assoc]
        apply not_infix_digit3
        · decide
        · decide
        · decide
      · rw [← List.append_assoc, ← List.append_assoc]
        apply not_infix_digit3
        · decide
        · decide
        · decide
      · rw [← List.append_assoc, ← List.append_assoc]
        apply not_infix_digit3
        · decide
        · decide
        · decide
      · rw [← List.append_assoc, ← List.append_assoc]
        apply not_infix_digit3
        · decide
        · decide
        · decide
      · decide
      · decide
    · simp only [if_neg hp, data_nil, List.nil_append]
      by_cases hs : r.seo < 9/10
      · simp only [if_pos hs]
        decide
      · simp only [if_neg hs]
        decide
  · intro ha
    simp only [containsSec, generateFallbackSuggestions, String.data_append, if_pos ha,
      List.append_assoc]
    apply infix_appR
    apply infix_appR
    apply infix_appR
    decide

set_option maxRecDepth 100000 in
theorem fb_lcp_iff (r : LighthouseResult) :
    containsSec (generateFallbackSuggestions r) "Optimize Largest Contentful Paint"
      ↔ (r.performance < 9/10 ∧ r.metrics.largestContentfulPaint > 2500) := by
  constructor
  · intro h
    by_contra hc
    rw [not_and_or] at hc
    revert h
    rcases hc with hp | hl
    · simp only [containsSec, generateFallbackSuggestions, String.data_append, data_nil,
        if_neg hp, List.append_assoc, List.append_nil, List.nil_append]
      by_cases hs : r.seo < 9/10 <;> by_cases ha : r.accessibility < 9/10 <;>
        simp only [hs, ha, ite_true, ite_false, String.data_append, data_nil,
          List.append_assoc, List.append_nil, List.nil_append] <;> decide
    · by_cases hp : r.performance < 9/10
      · simp only [containsSec, generateFallbackSuggestions, perfBlock, String.data_append,
          data_nil, if_pos hp, if_neg hl, intRepr_data, List.append_assoc, List.append_nil,
          List.nil_append]
        by_cases ht : r.metrics.totalBlockingTime > 200 <;>
          by_cases hs : r.seo < 9/10 <;> by_cases ha : r.accessibility < 9/10 <;>
          simp only [ht, hs, ha, ite_true, ite_false, String.data_append, data_nil,
            List.append_assoc, List.append_nil, List.nil_append, intRepr_data]
        · rw [← List.append_assoc, ← List.append_assoc]
          apply not_infix_digit3
          · decide
          · decide
          · decide
        · rw [← List.append_assoc, ← List.append_assoc]
          apply not_infix_digit3
          · decide
          · decide
          · decide
        · rw [← List.append_assoc, ← List.append_assoc]
          apply not_infix_digit3
          · decide
          · decide
          · decide
        · rw [← List.append_assoc, ← List.append_assoc]
          apply not_infix_digit3
          · decide
          · decide
          · decide
        · decide
        · decide
        · decide
        · decide
      · simp only [containsSec, generateFallbackSuggestions, String.data_append, data_nil,
          if_neg hp, List.append_assoc, List.append_nil, List.nil_append]
        by_cases hs : r.seo < 9/10 <;> by_cases ha : r.accessibility < 9/10 <;>
          simp only [hs, ha, ite_true, ite_false, String.data_append, data_nil,
            List.append_assoc, List.append_nil, List.nil_append] <;> decide
  · rintro ⟨hp, hl⟩
    simp only [containsSec, generateFallbackSuggestions, perfBlock, String.data_append,
      if_pos hp, if_pos hl, intRepr_data, List.append_assoc]
    apply infix_appR
    apply infix_appR
    apply infix_appL
    decide

set_option maxRecDepth 100000 in
theorem fb_tbt_iff (r : LighthouseResult) :
    containsSec (generateFallbackSuggestions r) "Reduce JavaScript Blocking"
      ↔ (r.performance < 9/10 ∧ r.metrics.totalBlockingTime > 200) := by
  constructor
  · intro h
    by_contra hc
    rw [not_and_or] at hc
    revert h
    rcases hc with hp | ht
    · simp only [containsSec, generateFallbackSuggestions, String.data_append, data_nil,
        if_neg hp, List.append_assoc, List.append_nil, List.nil_append]
      by_cases hs : r.seo < 9/10 <;> by_cases ha : r.accessibility < 9/10 <;>
        simp only [hs, ha, ite_true, ite_false, String.data_append, data_nil,
          List.append_assoc, List.append_nil, List.nil_append] <;> decide
    · by_cases hp : r.performance < 9/10
      · simp only [containsSec, generateFallbackSuggestions, perfBlock, String.data_append,
          data_nil, if_pos hp, if_neg ht, intRepr_data, List.append_assoc, List.append_nil,
          List.nil_append]
        by_cases hl : r.metrics.largestContentfulPaint > 2500 <;>
          by_cases hs : r.seo < 9/10 <;> by_cases ha : r.accessibility < 9/10 <;>
          simp only [hl, hs, ha, ite_true, ite_false, String.data_append, data_nil,
            List.append_assoc, List.append_nil, List.nil_append, intRepr_data]
        · rw [← List.append_assoc, ← List.append_assoc]
          apply not_infix_digit3
          · decide
          · decide
          · decide
        · rw [← List.append_assoc, ← List.append_assoc]
          apply not_infix_digit3
          · decide
          · decide
          · decide
        · rw [← List.append_assoc, ← List.append_assoc]
          apply not_infix_digit3
          · decide
          · decide
          · decide
        · rw [← List.append_assoc, ← List.append_assoc]
          apply not_infix_digit3
          · decide
          · decide
          · decide
        · decide
        · decide
        · decide
        · decide
      · simp only [containsSec, generateFallbackSuggestions, String.data_append, data_nil,
          if_neg hp, List.append_assoc, List.append_nil, List.nil_append]
        by_cases hs : r.seo < 9/10 <;> by_cases ha : r.accessibility < 9/10 <;>
          simp only [hs, ha, ite_true, ite_false, String.data_append, data_nil,
            List.append_assoc, List.append_nil, List.nil_append] <;> decide
  · rintro ⟨hp, ht⟩
    simp only [containsSec, generateFallbackSuggestions, perfBlock, String.data_append,
      if_pos hp, if_pos ht, intRepr_data, List.append_assoc]
    apply infix_appR
    apply infix_appR
    apply infix_appR
    apply infix_appL
    decide

/-! ## Claim theorems -/

/-- C1: for every audit result and URL, when the outbound text-generation
call fails (network error, non-success status, or unparseable body — the
cases in which the code throws), `generateAISuggestions` does not propagate
the error: the handler returns 200, its `suggestions` string is exactly the
fallback generator's output, that output is non-empty, and it contains a
performance section if and only if the performance score is < 0.9. -/
theorem c1_ai_failure_falls_back (vu : String → Bool) (u : String)
    (resp : PSIResponse) (o : GenOutcome)
    (hu : u ≠ "") (hvu : vu u = true)
    (ho : o = .fetchError ∨ o = .httpError ∨ o = .parseError) :
    (POST vu (.parsed (some u)) (.success resp) o).status = 200
    ∧ (POST vu (.parsed (some u)) (.success resp) o).suggestions
        = some (generateFallbackSuggestions (extractLighthouseResult resp))
    ∧ generateFallbackSuggestions (extractLighthouseResult resp) ≠ ""
    ∧ (containsSec (generateFallbackSuggestions (extractLighthouseResult resp))
          "Performance Improvements"
        ↔ (extractLighthouseResult resp).performance < 9/10) := by
  refine ⟨?_, ?_, fb_ne_empty _, fb_perf_iff _⟩
  · simp [POST, hu, hvu]
  · rcases ho with h | h | h <;> subst h <;> simp [POST, hu, hvu, generateAISuggestions]

theorem c1_ai_failure_falls_back_witness :
    (POST (fun _ => true) (.parsed (some "https://example.com"))
        (.success ⟨⟨none, none, none, none⟩, [], none⟩) .httpError).status = 200
    ∧ (POST (fun _ => true) (.parsed (some "https://example.com"))
        (.success ⟨⟨none, none, none, none⟩, [], none⟩) .httpError).suggestions
      = some (generateFallbackSuggestions
          (extractLighthouseResult ⟨⟨none, none, none, none⟩, [], none⟩)) :=
  ⟨(c1_ai_failure_falls_back (fun _ => true) "https://example.com"
      ⟨⟨none, none, none, none⟩, [], none⟩ .httpError (by decide) rfl
      (Or.inr (Or.inl rfl))).1,
   (c1_ai_failure_falls_back (fun _ => true) "https://example.com"
      ⟨⟨none, none, none, none⟩, [], none⟩ .httpError (by decide) rfl
      (Or.inr (Or.inl rfl))).2.1⟩

/-- C2 (counterexample): the claim "if the url string cannot be parsed as a
URL the handler returns 400 with error message \"Invalid URL format\"" fails
at the url `""`: the empty string is not URL-parseable (the oracle here
rejects every string), yet the handler answers with the required-field
message, because the JS falsiness check `!url` also captures `""`. -/
theorem c2_url_validation_cex :
    (POST (fun _ => false) (.parsed (some "")) .noKey (.parsed none)).status = 400
    ∧ (POST (fun _ => false) (.parsed (some "")) .noKey (.parsed none)).error
        = some "URL is required"
    ∧ (POST (fun _ => false) (.parsed (some "")) .noKey (.parsed none)).error
        ≠ some "Invalid URL format" := by
  refine ⟨rfl, rfl, ?_⟩
  decide

/-- C2 (amended): a request body with a missing url field — and likewise an
empty-string url, which the falsiness check folds into the same case — gets
400 with "URL is required"; a nonempty url the URL parser rejects gets 400
with "Invalid URL format"; in all of these no outbound network call is
made. -/
theorem c2_url_validation (vu : String → Bool) (psi : PSIOutcome) (gen : GenOutcome) :
    POST vu (.parsed none) psi gen = ⟨400, some "URL is required", none, none, []⟩
    ∧ POST vu (.parsed (some "")) psi gen = ⟨400, some "URL is required", none, none, []⟩
    ∧ (∀ u : String, u ≠ "" → vu u = false →
        POST vu (.parsed (some u)) psi gen
          = ⟨400, some "Invalid URL format", none, none, []⟩) := by
  refine ⟨rfl, by simp [POST], ?_⟩
  intro u hu hvu
  simp [POST, hu, hvu]

theorem c2_url_validation_witness :
    POST (fun _ => false) (.parsed (some "not a url")) .noKey .fetchError
      = ⟨400, some "Invalid URL format", none, none, []⟩ :=
  (c2_url_validation (fun _ => false) .noKey .fetchError).2.2 "not a url" (by decide) rfl

/-- C3: the fallback generator is a pure function of the audit result whose
output depends only on the four category scores and the two metrics (never
on opportunities, diagnostics or page info), and whose sections obey the
thresholds: a performance section iff performance < 0.9, with an LCP
sub-bullet iff (within that section) largestContentfulPaint > 2500 and a
blocking-time sub-bullet iff totalBlockingTime > 200; an SEO section iff
seo < 0.9; an accessibility section iff accessibility < 0.9. -/
theorem c3_fallback_sections (r r' : LighthouseResult) :
    (r.performance = r'.performance → r.accessibility = r'.accessibility →
      r.bestPractices = r'.bestPractices → r.seo = r'.seo →
      r.metrics.largestContentfulPaint = r'.metrics.largestContentfulPaint →
      r.metrics.totalBlockingTime = r'.metrics.totalBlockingTime →
      generateFallbackSuggestions r = generateFallbackSuggestions r')
    ∧ (containsSec (generateFallbackSuggestions r) "Performance Improvements"
        ↔ r.performance < 9/10)
    ∧ (containsSec (generateFallbackSuggestions r) "Optimize Largest Contentful Paint"
        ↔ (r.performance < 9/10 ∧ r.metrics.largestContentfulPaint > 2500))
    ∧ (containsSec (generateFallbackSuggestions r) "Reduce JavaScript Blocking"
        ↔ (r.performance < 9/10 ∧ r.metrics.totalBlockingTime > 200))
    ∧ (containsSec (generateFallbackSuggestions r) "SEO Enhancements" ↔ r.seo < 9/10)
    ∧ (containsSec (generateFallbackSuggestions r) "Accessibility Improvements"
        ↔ r.accessibility < 9/10) :=
  ⟨fun h1 h2 h3 h4 h5 h6 => fb_depends r r' h1 h4 h2 h5 h6,
   fb_perf_iff r, fb_lcp_iff r, fb_tbt_iff r, fb_seo_iff r, fb_acc_iff r⟩

theorem c3_fallback_sections_witness :
    generateFallbackSuggestions
        ⟨1/2, 1, 1, 1, ⟨0, 3000, 0, 0, 0, 300⟩, ⟨"a", "b", "c"⟩, [], []⟩
      = generateFallbackSuggestions
        ⟨1/2, 1, 1, 1, ⟨7, 3000, 9, 4, 6, 300⟩, ⟨"x", "y", "z"⟩,
          [⟨"o", "t", "d", 5⟩], [⟨"i", "t", "d", "v"⟩]⟩ :=
  (c3_fallback_sections _ _).1 rfl rfl rfl rfl rfl rfl

/-- C4: the derived opportunities are exactly the audit entries whose
detail type is "opportunity" with strictly positive numeric value, in
upstream iteration order, projected to `{id, title, description, savings}`
and truncated to the first 10 (so 15 qualifying entries yield exactly the
first 10); the derived diagnostics are exactly the binary-score-mode
entries with score below 1, likewise truncated to 10. -/
theorem c4_opportunities_diagnostics (audits : List (String × AuditEntry)) :
    extractOpportunities audits
      = ((audits.filter fun kv => oppQualifies kv.2).take 10).map mkOpportunity
    ∧ extractDiagnostics audits
      = ((audits.filter fun kv => diagQualifies kv.2).take 10).map mkDiagnostic
    ∧ ((audits.filter fun kv => oppQualifies kv.2).length = 15 →
        (extractOpportunities audits).length = 10) := by
  refine ⟨?_, ?_, ?_⟩
  · rw [extractOpportunities, List.map_take]
  · rw [extractDiagnostics, List.map_take]
  · intro h15
    rw [extractOpportunities, List.length_take, List.length_map, h15]
    decide

theorem c4_opportunities_diagnostics_witness :
    (extractOpportunities (List.replicate 15
        ("k", ⟨some 5, some "opportunity", none, none, "t", "d", none⟩))).length = 10 :=
  (c4_opportunities_diagnostics _).2.2 (by decide)

/-- C5: on a successful upstream response, every missing numeric field
defaults to 0 — in particular a missing largest-contentful-paint entry
yields metric 0 — and every missing text field defaults to its fixed
placeholder: "No title", "No description", and the empty screenshot. -/
theorem c5_missing_field_defaults (resp : PSIResponse) :
    ((resp.audits.lookup "first-contentful-paint").bind (·.numericValue) = none →
      (extractLighthouseResult resp).metrics.firstContentfulPaint = 0)
    ∧ ((resp.audits.lookup "largest-contentful-paint").bind (·.numericValue) = none →
      (extractLighthouseResult resp).metrics.largestContentfulPaint = 0)
    ∧ ((resp.audits.lookup "max-potential-fid").bind (·.numericValue) = none →
      (extractLighthouseResult resp).metrics.firstInputDelay = 0)
    ∧ ((resp.audits.lookup "cumulative-layout-shift").bind (·.numericValue) = none →
      (extractLighthouseResult resp).metrics.cumulativeLayoutShift = 0)
    ∧ ((resp.audits.lookup "speed-index").bind (·.numericValue) = none →
      (extractLighthouseResult resp).metrics.speedIndex = 0)
    ∧ ((resp.audits.lookup "total-blocking-time").bind (·.numericValue) = none →
      (extractLighthouseResult resp).metrics.totalBlockingTime = 0)
    ∧ (resp.categories.performance = none →
      (extractLighthouseResult resp).performance = 0)
    ∧ (resp.categories.accessibility = none →
      (extractLighthouseResult resp).accessibility = 0)
    ∧ (resp.categories.bestPractices = none →
      (extractLighthouseResult resp).bestPractices = 0)
    ∧ (resp.categories.seo = none → (extractLighthouseResult resp).seo = 0)
    ∧ ((resp.audits.lookup "document-title").bind (·.displayValue) = none →
      (extractLighthouseResult resp).pageInfo.title = "No title")
    ∧ ((resp.audits.lookup "meta-description").bind (·.displayValue) = none →
      (extractLighthouseResult resp).pageInfo.description = "No description")
    ∧ (resp.fullPageScreenshotData = none →
      (extractLighthouseResult resp).pageInfo.screenshot = "") := by
  refine ⟨?_, ?_, ?_, ?_, ?_, ?_, ?_, ?_, ?_, ?_, ?_, ?_, ?_⟩ <;> intro h <;>
    simp [extractLighthouseResult, extractMetrics, extractPageInfo, h, jsOrNum, jsOrStr]

theorem c5_missing_field_defaults_witness :
    (extractLighthouseResult ⟨⟨none, none, none, none⟩, [], none⟩).metrics.largestContentfulPaint = 0
    ∧ (extractLighthouseResult ⟨⟨none, none, none, none⟩, [], none⟩).pageInfo.title = "No title"
    ∧ (extractLighthouseResult ⟨⟨none, none, none, none⟩, [], none⟩).pageInfo.screenshot = "" :=
  ⟨(c5_missing_field_defaults ⟨⟨none, none, none, none⟩, [], none⟩).2.1 rfl,
   (c5_missing_field_defaults ⟨⟨none, none, none, none⟩, [], none⟩).2.2.2.2.2.2.2.2.2.2.1 rfl,
   (c5_missing_field_defaults ⟨⟨none, none, none, none⟩, [], none⟩).2.2.2.2.2.2.2.2.2.2.2.2 rfl⟩

/-- C6: score classification is total and monotonic: every score ≥ 90 is
"good" (green), every score in [70, 90) is "fair" (yellow), every score
< 70 is "poor" (red) — so 0, 69, 70, 89, 90, 100 classify as poor, poor,
fair, fair, good, good — and out-of-range inputs (negative or above 100)
classify without any error case. -/
theorem c6_score_classification :
    (∀ s : ℚ, 90 ≤ s → getScoreColor s = "text-green-600")
    ∧ (∀ s : ℚ, 70 ≤ s → s < 90 → getScoreColor s = "text-yellow-600")
    ∧ (∀ s : ℚ, s < 70 → getScoreColor s = "text-red-600")
    ∧ (∀ s s' : ℚ, s ≤ s' → tierRank (getScoreColor s) ≤ tierRank (getScoreColor s'))
    ∧ getScoreColor 0 = "text-red-600" ∧ getScoreColor 69 = "text-red-600"
    ∧ getScoreColor 70 = "text-yellow-600" ∧ getScoreColor 89 = "text-yellow-600"
    ∧ getScoreColor 90 = "text-green-600" ∧ getScoreColor 100 = "text-green-600"
    ∧ getScoreColor (-50) = "text-red-600" ∧ getScoreColor 1000 = "text-green-600" := by
  refine ⟨?_, ?_, ?_, ?_, ?_, ?_, ?_, ?_, ?_, ?_, ?_, ?_⟩
  · intro s h
    rw [getScoreColor, if_pos h]
  · intro s h1 h2
    rw [getScoreColor, if_neg (not_le.mpr h2), if_pos h1]
  · intro s h
    rw [getScoreColor, if_neg (by linarith : ¬ s ≥ 90), if_neg (not_le.mpr h)]
  · intro s s' hss
    rw [getScoreColor, getScoreColor]
    split_ifs <;> first | decide | (exfalso; linarith)
  all_goals rw [getScoreColor]
  all_goals norm_num

theorem c6_score_classification_witness :
    getScoreColor 95 = "text-green-600" ∧ getScoreColor 75 = "text-yellow-600"
    ∧ getScoreColor 30 = "text-red-600"
    ∧ tierRank (getScoreColor 50) ≤ tierRank (getScoreColor 80) :=
  ⟨c6_score_classification.1 95 (by norm_num),
   c6_score_classification.2.1 75 (by norm_num) (by norm_num),
   c6_score_classification.2.2.1 30 (by norm_num),
   c6_score_classification.2.2.2.1 50 80 (by norm_num)⟩

/-- C9: when the text-generation HTTP call succeeds but the parsed body
lacks `choices[0].message.content` (absent, wrongly shaped, or the empty
string — all falsy), `generateAISuggestions` returns the fixed placeholder
string, which is not the fallback generator's output; the fallback
generator is invoked only on the thrown-error outcomes, and a nonempty
content string is returned as is. -/
theorem c9_placeholder_not_fallback (r : LighthouseResult) (c : Option String)
    (hc : c = none ∨ c = some "") :
    generateAISuggestions (.parsed c) r = "Unable to generate AI suggestions at this time."
    ∧ generateAISuggestions (.parsed c) r ≠ generateFallbackSuggestions r
    ∧ (∀ o : GenOutcome, o = .fetchError ∨ o = .httpError ∨ o = .parseError →
        generateAISuggestions o r = generateFallbackSuggestions r)
    ∧ (∀ s : String, s ≠ "" → generateAISuggestions (.parsed (some s)) r = s) := by
  have h1 : generateAISuggestions (.parsed c) r = aiPlaceholder := by
    rcases hc with h | h <;> subst h <;> simp [generateAISuggestions, jsOrStr, aiPlaceholder]
  refine ⟨h1, ?_, ?_, ?_⟩
  · rw [h1]
    exact fun h => fb_ne_placeholder r h.symm
  · intro o ho
    rcases ho with h | h | h <;> subst h <;> rfl
  · intro s hs
    simp [generateAISuggestions, jsOrStr, hs]

theorem c9_placeholder_not_fallback_witness :
    generateAISuggestions (.parsed none)
        ⟨0, 0, 0, 0, ⟨0, 0, 0, 0, 0, 0⟩, ⟨"", "", ""⟩, [], []⟩
      = "Unable to generate AI suggestions at this time."
    ∧ generateAISuggestions (.parsed none)
        ⟨0, 0, 0, 0, ⟨0, 0, 0, 0, 0, 0⟩, ⟨"", "", ""⟩, [], []⟩
      ≠ generateFallbackSuggestions
        ⟨0, 0, 0, 0, ⟨0, 0, 0, 0, 0, 0⟩, ⟨"", "", ""⟩, [], []⟩ :=
  ⟨(c9_placeholder_not_fallback _ none (Or.inl rfl)).1,
   (c9_placeholder_not_fallback _ none (Or.inl rfl)).2.1⟩

/-- C10: the fallback generator's output is always non-empty and starts
with the fixed header line "# Website Audit Results"; when the performance,
SEO and accessibility scores are all ≥ 0.9 the output is the header (with
its trailing blank line) alone, with no recommendation sections. -/
theorem c10_fallback_header (r : LighthouseResult) :
    generateFallbackSuggestions r ≠ ""
    ∧ "# Website Audit Results".data <+: (generateFallbackSuggestions r).data
    ∧ (9/10 ≤ r.performance → 9/10 ≤ r.seo → 9/10 ≤ r.accessibility →
        generateFallbackSuggestions r = "# Website Audit Results\n\n") := by
  refine ⟨fb_ne_empty r, ?_, ?_⟩
  · have hp := fb_data_prefix r
    obtain ⟨t, ht⟩ := hp
    exact ⟨"\n\n".data ++ t, by rw [← ht]; rfl⟩
  · intro h1 h2 h3
    rw [generateFallbackSuggestions, if_neg (not_lt.mpr h1), if_neg (not_lt.mpr h2),
      if_neg (not_lt.mpr h3)]
    rfl

theorem c10_fallback_header_witness :
    generateFallbackSuggestions
        ⟨1, 1, 1, 1, ⟨0, 9000, 0, 0, 0, 900⟩, ⟨"t", "d", "s"⟩, [], []⟩
      = "# Website Audit Results\n\n" :=
  (c10_fallback_header _).2.2 (by norm_num) (by norm_num) (by norm_num)

/-! ## Inline-link rendering: helper lemmas -/

theorem data_mk (l : List Char) : (String.mk l).data = l := rfl

theorem mk_data (s : String) : String.mk s.data = s := rfl

theorem dropWhile_cons_false {p : Char → Bool} {a : Char} {l : List Char}
    (h : p a = false) : (a :: l).dropWhile p = a :: l := by
  simp [List.dropWhile_cons, h]

theorem dropWhile_id_append {p : Char → Bool} {A B : List Char}
    (hA : A.dropWhile p = A) (hB : B.dropWhile p = B) :
    (A ++ B).dropWhile p = A ++ B := by
  cases A with
  | nil => simpa using hB
  | cons a A' =>
    have ha : p a = false := by
      by_contra h
      rw [Bool.not_eq_false] at h
      rw [List.dropWhile_cons, if_pos h] at hA
      have hlen := congrArg List.length hA
      have hle : (A'.dropWhile p).length ≤ A'.length :=
        (List.dropWhile_suffix p).length_le
      simp only [List.length_cons] at hlen
      omega
    rw [List.cons_append, List.dropWhile_cons, if_neg (by simp [ha])]

theorem trail_id {p : Char → Bool} {A B : List Char} {x : Char}
    (hB : B.reverse.dropWhile p = B.reverse) (hx : p x = false) :
    (A ++ x :: B).reverse.dropWhile p = (A ++ x :: B).reverse := by
  rw [List.reverse_append, List.reverse_cons, List.append_assoc]
  exact dropWhile_id_append hB (dropWhile_cons_false hx)

theorem takeWhile_run {p : Char → Bool} {A : List Char} (x : Char) (B : List Char)
    (hA : ∀ c ∈ A, p c = true) (hx : p x = false) :
    (A ++ x :: B).takeWhile p = A ∧ (A ++ x :: B).dropWhile p = x :: B := by
  induction A with
  | nil => simp [List.takeWhile_cons, List.dropWhile_cons, hx]
  | cons a A' ih =>
    have ha : p a = true := hA a (List.mem_cons_self a A')
    have ih2 := ih fun c hc => hA c (List.mem_cons_of_mem a hc)
    simp only [List.cons_append, List.takeWhile_cons, List.dropWhile_cons, ha,
      if_true, ite_true]
    exact ⟨by rw [ih2.1], by rw [ih2.2]⟩

theorem linkMatch_none_of_ne {c : Char} (r : List Char) (h : c ≠ '[') :
    linkMatch (c :: r) = none := by
  unfold linkMatch
  simp [h]

theorem linkMatch_at (label url rest : List Char)
    (hl1 : label ≠ []) (hl2 : ']' ∉ label) (hu1 : url ≠ []) (hu2 : ')' ∉ url) :
    linkMatch ('[' :: (label ++ (']' :: '(' :: (url ++ (')' :: rest)))))
      = some (label, url, rest) := by
  have hlab := takeWhile_run (p := fun x => !(x == ']')) ']'
    ('(' :: (url ++ (')' :: rest)))
    (fun c hc => by simp; exact fun h => hl2 (h ▸ hc)) (by simp)
  have hurl := takeWhile_run (p := fun x => !(x == ')')) ')' rest
    (fun c hc => by simp; exact fun h => hu2 (h ▸ hc)) (by simp)
  simp [linkMatch, hlab.1, hlab.2, hurl.1, hurl.2, hl1, hu1]

theorem scanParts_cons_none {c : Char} {rest pend : List Char}
    (h : linkMatch (c :: rest) = none) :
    scanParts (c :: rest) pend = scanParts rest (c :: pend) := by
  rw [scanParts]
  split
  · rename_i t heq
    rw [h] at heq
    exact absurd heq (by simp)
  · rfl

theorem scanParts_cons_some {c : Char} {rest pend : List Char}
    {t : List Char × List Char × List Char} (h : linkMatch (c :: rest) = some t) :
    scanParts (c :: rest) pend
      = (if pend.isEmpty then [] else [RPart.text ⟨pend.reverse⟩])
        ++ RPart.link ⟨t.1⟩ ⟨t.2.1⟩ :: scanParts t.2.2 [] := by
  rw [scanParts]
  split
  · rename_i t' heq
    rw [h] at heq
    simp only [Option.some.injEq] at heq
    rw [heq]
  · rename_i heq
    rw [h] at heq
    exact absurd heq (by simp)

theorem scanParts_shift : ∀ (pre l pend : List Char), '[' ∉ pre →
    scanParts (pre ++ l) pend = scanParts l (pre.reverse ++ pend) := by
  intro pre
  induction pre with
  | nil => intro l pend h; simp
  | cons c pre' ih =>
    intro l pend h
    have hc : c ≠ '[' := fun he => h (he ▸ List.mem_cons_self c pre')
    have h' : '[' ∉ pre' := fun hm => h (List.mem_cons_of_mem c hm)
    rw [List.cons_append, scanParts_cons_none (linkMatch_none_of_ne _ hc)]
    rw [ih l (c :: pend) h']
    simp

theorem scanParts_no_bracket : ∀ (l pend : List Char), '[' ∉ l →
    scanParts l pend = (if (pend.reverse ++ l).isEmpty then []
      else [.text ⟨pend.reverse ++ l⟩]) := by
  intro l
  induction l with
  | nil => intro pend h; simp [scanParts]
  | cons c rest ih =>
    intro pend h
    have hc : c ≠ '[' := fun he => h (he ▸ List.mem_cons_self c rest)
    have h' : '[' ∉ rest := fun hm => h (List.mem_cons_of_mem c hm)
    rw [scanParts_cons_none (linkMatch_none_of_ne _ hc)]
    rw [ih (c :: pend) h']
    have hrw : (c :: pend).reverse ++ rest = pend.reverse ++ (c :: rest) := by simp
    rw [hrw]

theorem scanParts_link (pre label url post : List Char)
    (hpre : '[' ∉ pre) (hpost : '[' ∉ post)
    (hl1 : label ≠ []) (hl2 : ']' ∉ label) (hu1 : url ≠ []) (hu2 : ')' ∉ url) :
    scanParts (pre ++ ('[' :: (label ++ (']' :: '(' :: (url ++ (')' :: post)))))) []
      = (if pre.isEmpty then [] else [.text ⟨pre⟩])
        ++ RPart.link ⟨label⟩ ⟨url⟩ ::
          (if post.isEmpty then [] else [.text ⟨post⟩]) := by
  rw [scanParts_shift pre _ [] hpre]
  rw [scanParts_cons_some (linkMatch_at label url post hl1 hl2 hu1 hu2)]
  rw [scanParts_no_bracket post [] hpost]
  simp [List.isEmpty_iff]

/-- C8: round-trip of inline links. For every bullet line
`- <pre>[<label>](<url>)<post>` (with well-formed surroundings: no `[` in
the plain text, a nonempty label without `]`, a nonempty url without `)`,
and no leading/trailing whitespace that the line trim or bullet strip would
eat), rendering the line yields exactly an optional text part for `pre`, a
link part whose visible text is `label` and whose target is `url`, and an
optional text part for `post`; re-extracting the plain text gives
`pre ++ label ++ post` and the link targets are exactly `[url]`. -/
theorem c8_link_round_trip (pre label url post : String)
    (hpre1 : '[' ∉ pre.data) (hpre2 : pre.data.dropWhile jsWS = pre.data)
    (hl1 : label.data ≠ []) (hl2 : ']' ∉ label.data)
    (hu1 : url.data ≠ []) (hu2 : ')' ∉ url.data)
    (hpost1 : '[' ∉ post.data)
    (hpost2 : post.data.reverse.dropWhile jsWS = post.data.reverse) :
    renderLine ("- " ++ pre ++ "[" ++ label ++ "](" ++ url ++ ")" ++ post)
      = (if pre = "" then [] else [.text pre])
        ++ RPart.link label url :: (if post = "" then [] else [.text post])
    ∧ plainText (renderLine ("- " ++ pre ++ "[" ++ label ++ "](" ++ url ++ ")" ++ post))
      = pre ++ label ++ post
    ∧ linkDests (renderLine ("- " ++ pre ++ "[" ++ label ++ "](" ++ url ++ ")" ++ post))
      = [url] := by
  have hmain : renderLine ("- " ++ pre ++ "[" ++ label ++ "](" ++ url ++ ")" ++ post)
      = (if pre = "" then [] else [.text pre])
        ++ RPart.link label url :: (if post = "" then [] else [.text post]) := by
    have hdata : ("- " ++ pre ++ "[" ++ label ++ "](" ++ url ++ ")" ++ post).data
        = '-' :: ' ' :: (pre.data ++ ('[' :: (label.data
            ++ (']' :: '(' :: (url.data ++ (')' :: post.data)))))) := by
      simp [String.data_append, List.append_assoc,
        show ("- " : String).data = ['-', ' '] from rfl,
        show ("[" : String).data = ['['] from rfl,
        show ("](" : String).data = [']', '('] from rfl,
        show (")" : String).data = [')'] from rfl]
    have hL2 : '-' :: ' ' :: (pre.data ++ ('[' :: (label.data
          ++ (']' :: '(' :: (url.data ++ (')' :: post.data))))))
        = ('-' :: ' ' :: (pre.data ++ ('[' :: (label.data
            ++ (']' :: '(' :: url.data))))) ++ (')' :: post.data) := by
      simp [List.append_assoc]
    have hlead : ('-' :: ' ' :: (pre.data ++ ('[' :: (label.data
        ++ (']' :: '(' :: (url.data ++ (')' :: post.data))))))).dropWhile jsWS
        = '-' :: ' ' :: (pre.data ++ ('[' :: (label.data
          ++ (']' :: '(' :: (url.data ++ (')' :: post.data)))))) :=
      dropWhile_cons_false (by decide)
    have htrail : ('-' :: ' ' :: (pre.data ++ ('[' :: (label.data
          ++ (']' :: '(' :: (url.data ++ (')' :: post.data))))))).reverse.dropWhile jsWS
        = ('-' :: ' ' :: (pre.data ++ ('[' :: (label.data
          ++ (']' :: '(' :: (url.data ++ (')' :: post.data))))))).reverse := by
      rw [hL2]
      exact trail_id hpost2 (by decide)
    have htrim : jsTrim ('-' :: ' ' :: (pre.data ++ ('[' :: (label.data
          ++ (']' :: '(' :: (url.data ++ (')' :: post.data)))))))
        = '-' :: ' ' :: (pre.data ++ ('[' :: (label.data
          ++ (']' :: '(' :: (url.data ++ (')' :: post.data)))))) := by
      rw [jsTrim, hlead, htrail, List.reverse_reverse]
    have hstrip : bulletStrip ('-' :: ' ' :: (pre.data ++ ('[' :: (label.data
          ++ (']' :: '(' :: (url.data ++ (')' :: post.data)))))))
        = pre.data ++ ('[' :: (label.data
          ++ (']' :: '(' :: (url.data ++ (')' :: post.data))))) := by
      simp only [bulletStrip]
      rw [if_pos (by decide)]
      rw [List.dropWhile_cons, if_pos (by decide)]
      exact dropWhile_id_append hpre2 (dropWhile_cons_false (by decide))
    simp only [renderLine]
    rw [hdata, htrim, hstrip]
    rw [if_pos (by simp [startsBullet])]
    simp only [renderInlineFormatting, data_mk]
    rw [scanParts_link pre.data label.data url.data post.data hpre1 hpost1 hl1 hl2 hu1 hu2]
    rw [if_neg (by simp)]
    have hpre_if : (if pre.data.isEmpty = true then ([] : List RPart)
        else [.text ⟨pre.data⟩]) = (if pre = "" then [] else [.text pre]) := by
      by_cases h0 : pre = ""
      · rw [if_pos h0, if_pos (by rw [h0]; rfl)]
      · rw [if_neg h0, if_neg (by
          intro hc
          exact h0 (String.ext (List.isEmpty_iff.mp hc))), mk_data]
    have hpost_if : (if post.data.isEmpty = true then ([] : List RPart)
        else [.text ⟨post.data⟩]) = (if post = "" then [] else [.text post]) := by
      by_cases h0 : post = ""
      · rw [if_pos h0, if_pos (by rw [h0]; rfl)]
      · rw [if_neg h0, if_neg (by
          intro hc
          exact h0 (String.ext (List.isEmpty_iff.mp hc))), mk_data]
    rw [hpre_if, hpost_if, mk_data, mk_data]
  refine ⟨hmain, ?_, ?_⟩
  · rw [hmain]
    by_cases h0 : pre = "" <;> by_cases h1 : post = "" <;>
      simp only [h0, h1, plainText, List.foldr, ite_true, ite_false, if_pos, if_neg,
        List.nil_append, List.cons_append, List.append_nil] <;>
      apply String.ext <;>
      simp [String.data_append]
  · rw [hmain]
    by_cases h0 : pre = "" <;> by_cases h1 : post = "" <;>
      simp [h0, h1, linkDests]

theorem c8_link_round_trip_witness :
    plainText (renderLine ("- " ++ "see " ++ "[" ++ "l" ++ "](" ++ "http://x" ++ ")" ++ " end"))
      = "see " ++ "l" ++ " end"
    ∧ linkDests (renderLine ("- " ++ "see " ++ "[" ++ "l" ++ "](" ++ "http://x" ++ ")" ++ " end"))
      = ["http://x"] :=
  ⟨(c8_link_round_trip "see " "l" "http://x" " end" (by decide) (by decide) (by decide)
      (by decide) (by decide) (by decide) (by decide) (by decide)).2.1,
   (c8_link_round_trip "see " "l" "http://x" " end" (by decide) (by decide) (by decide)
      (by decide) (by decide) (by decide) (by decide) (by decide)).2.2⟩

/-! ## Sectioning: helper lemmas -/

theorem stripHash_id : ∀ (l : List Char), '#' ∉ l → stripHash l = l := by
  intro l
  induction l with
  | nil => intro h; rw [stripHash]
  | cons c rest ih =>
    intro h
    have hc : c ≠ '#' := fun he => h (he ▸ List.mem_cons_self c rest)
    have h' : '#' ∉ rest := fun hm => h (List.mem_cons_of_mem c hm)
    rw [stripHash, if_neg hc, ih h']

theorem boldMatch_none_of_ne {c : Char} (r : List Char) (h : c ≠ '*') :
    boldMatch (c :: r) = none := by
  unfold boldMatch
  simp [h]

theorem stripBold_cons_none {c : Char} {rest : List Char}
    (h : boldMatch (c :: rest) = none) :
    stripBold (c :: rest) = c :: stripBold rest := by
  rw [stripBold]
  split
  · rename_i p heq
    rw [h] at heq
    exact absurd heq (by simp)
  · rfl

theorem stripBold_id : ∀ (l : List Char), '*' ∉ l → stripBold l = l := by
  intro l
  induction l with
  | nil => intro h; rw [stripBold]
  | cons c rest ih =>
    intro h
    have hc : c ≠ '*' := fun he => h (he ▸ List.mem_cons_self c rest)
    have h' : '*' ∉ rest := fun hm => h (List.mem_cons_of_mem c hm)
    rw [stripBold_cons_none (boldMatch_none_of_ne rest hc), ih h']

theorem dropWhile_id_of_head {p : Char → Bool} {l : List Char}
    (h : ∀ c, l.head? = some c → p c = false) : l.dropWhile p = l := by
  cases l with
  | nil => rfl
  | cons c rest => exact dropWhile_cons_false (h c rfl)

theorem jsTrim_id {l : List Char}
    (h1 : ∀ c, l.head? = some c → jsWS c = false)
    (h2 : ∀ c, l.getLast? = some c → jsWS c = false) : jsTrim l = l := by
  rw [jsTrim, dropWhile_id_of_head h1, dropWhile_id_of_head
    (fun c hc => h2 c (by rw [← List.head?_reverse]; exact hc)), List.reverse_reverse]

theorem takeWhile_append_of_stop {p : Char → Bool} :
    ∀ {A : List Char} (X : List Char), (∃ c ∈ A, p c = false) →
    (A ++ X).takeWhile p = A.takeWhile p := by
  intro A
  induction A with
  | nil => intro X h; simp at h
  | cons a A' ih =>
    intro X h
    by_cases ha : p a
    · obtain ⟨c, hc, hpc⟩ := h
      rcases List.mem_cons.mp hc with he | hm
      · subst he
        exact absurd ha (by simp [hpc])
      · rw [List.cons_append, List.takeWhile_cons, if_pos ha, List.takeWhile_cons,
          if_pos ha, ih X ⟨c, hm, hpc⟩]
    · rw [List.cons_append, List.takeWhile_cons, if_neg ha, List.takeWhile_cons, if_neg ha]

theorem sepLen_append {d : List Char} (X : List Char) (hd : d ≠ [])
    (hlast : ∀ c, d.getLast? = some c → jsWS c = false) :
    sepLen (d ++ X) = sepLen d := by
  cases d with
  | nil => exact absurd rfl hd
  | cons c rest =>
    by_cases hc : c = '\n'
    · subst hc
      have hrest : rest ≠ [] := by
        intro he
        subst he
        exact absurd (hlast '\n' rfl) (by decide)
      rw [List.cons_append, sepLen, sepLen, if_pos rfl, if_pos rfl]
      have hstop : ∃ x ∈ rest, jsWS x = false := by
        refine ⟨rest.getLast hrest, List.getLast_mem hrest, ?_⟩
        apply hlast
        rw [List.getLast?_eq_getLast _ (by simp : ('\n' :: rest) ≠ [])]
        rw [List.getLast_cons hrest]
      rw [takeWhile_append_of_stop X hstop]
    · rw [List.cons_append, sepLen, sepLen, if_neg hc, if_neg hc]

theorem splitGo_cons_none {l cur : List Char} (h : sepLen l = none) (hl : l ≠ []) :
    splitGo l cur = splitGo l.tail (l.headD ' ' :: cur) := by
  cases l with
  | nil => exact absurd rfl hl
  | cons c rest =>
    rw [splitGo]
    split
    · rename_i k heq
      rw [h] at heq
      exact absurd heq (by simp)
    · rfl

theorem splitGo_sep {l cur : List Char} {k : ℕ} (h : sepLen l = some k) :
    splitGo l cur = cur.reverse :: splitGo (l.drop k) [] := by
  rw [splitGo]
  split
  · rename_i k' heq
    rw [h] at heq
    simp only [Option.some.injEq] at heq
    rw [heq]
  · rename_i heq
    rw [h] at heq
    exact absurd heq (by simp)

theorem splitGo_through : ∀ (b X cur : List Char),
    (∀ i, i < b.length → sepLen (b.drop i ++ X) = sepLen (b.drop i)) →
    (∀ i, sepLen (b.drop i) = none) →
    splitGo (b ++ X) cur = splitGo X (b.reverse ++ cur) := by
  intro b
  induction b with
  | nil => intro X cur hA hN; simp
  | cons c rest ih =>
    intro X cur hA hN
    have h0 : sepLen ((c :: rest) ++ X) = none := by
      rw [show (c :: rest) ++ X = ((c :: rest).drop 0) ++ X from rfl,
        hA 0 (by simp)]
      exact hN 0
    rw [splitGo_cons_none h0 (by simp)]
    have hA' : ∀ i, i < rest.length → sepLen (rest.drop i ++ X) = sepLen (rest.drop i) := by
      intro i hi
      have h3 := hA (i + 1) (by simp; omega)
      simpa using h3
    have hN' : ∀ i, sepLen (rest.drop i) = none := by
      intro i
      have h3 := hN (i + 1)
      simpa using h3
    rw [show ((c :: rest) ++ X).tail = rest ++ X from rfl,
      show ((c :: rest) ++ X).headD ' ' = c from rfl]
    rw [ih X (c :: cur) hA' hN']
    simp

theorem sepLen_boundary (b2 : List Char)
    (hhead : ∀ c, b2.head? = some c → jsWS c = false) :
    sepLen ('\n' :: '\n' :: b2) = some 2 := by
  rw [sepLen, if_pos rfl]
  have htw : ('\n' :: b2).takeWhile jsWS = ['\n'] := by
    rw [List.takeWhile_cons, if_pos (by decide)]
    have h2 : b2.takeWhile jsWS = [] := by
      cases b2 with
      | nil => rfl
      | cons c rest =>
        rw [List.takeWhile_cons, if_neg (by simp [hhead c rfl])]
    rw [h2]
  rw [htw]
  rfl

theorem split_two_blocks (b1 b2 : List Char)
    (hA1 : ∀ i, i < b1.length → sepLen (b1.drop i ++ ('\n' :: '\n' :: b2))
      = sepLen (b1.drop i))
    (hN1 : ∀ i, sepLen (b1.drop i) = none)
    (hN2 : ∀ i, sepLen (b2.drop i) = none)
    (hhead2 : ∀ c, b2.head? = some c → jsWS c = false) :
    splitGo (b1 ++ ('\n' :: '\n' :: b2)) [] = [b1, b2] := by
  rw [splitGo_through b1 _ [] hA1 hN1]
  rw [splitGo_sep (sepLen_boundary b2 hhead2)]
  have hb2 : splitGo b2 [] = [b2] := by
    have hth := splitGo_through b2 [] []
      (fun i hi => by rw [List.append_nil]) hN2
    rw [List.append_nil] at hth
    rw [hth, splitGo]
    simp [sepLen]
  rw [show ('\n' :: '\n' :: b2).drop 2 = b2 from rfl, hb2]
  simp

theorem goodBlock_spec {s : String} (h : goodBlock s = true) :
    s.data ≠ []
    ∧ (∀ c, s.data.head? = some c → jsWS c = false)
    ∧ (∀ c, s.data.getLast? = some c → jsWS c = false)
    ∧ (∀ i, sepLen (s.data.drop i) = none)
    ∧ '#' ∉ s.data
    ∧ '*' ∉ s.data := by
  unfold goodBlock at h
  simp only [Bool.and_eq_true] at h
  obtain ⟨⟨⟨⟨hh, hl⟩, hsep⟩, hhash⟩, hstar⟩ := h
  refine ⟨?_, ?_, ?_, ?_, ?_, ?_⟩
  · intro he
    rw [he] at hh
    simp at hh
  · intro c hc
    rw [hc] at hh
    simpa using hh
  · intro c hc
    rw [hc] at hl
    simpa using hl
  · intro i
    by_cases hi : i < s.data.length
    · have h2 := List.all_eq_true.mp (by rwa [noSepB] at hsep) i (List.mem_range.mpr hi)
      simpa [Option.isNone_iff_eq_none] using h2
    · rw [List.drop_eq_nil_of_le (by omega)]
      rfl
  · intro hm
    have hcf : s.data.elem '#' = false := by simpa using hhash
    have hct : s.data.elem '#' = true := List.elem_iff.mpr hm
    rw [hcf] at hct
    exact absurd hct (by simp)
  · intro hm
    have hcf : s.data.elem '*' = false := by simpa using hstar
    have hct : s.data.elem '*' = true := List.elem_iff.mpr hm
    rw [hcf] at hct
    exact absurd hct (by simp)

theorem splitNlGo_first : ∀ (l cur : List Char), ∃ tail,
    splitNlGo l cur = (cur.reverse ++ l.takeWhile (fun c => !(c == '\n'))) :: tail := by
  intro l
  induction l with
  | nil => intro cur; exact ⟨[], by simp [splitNlGo]⟩
  | cons c rest ih =>
    intro cur
    by_cases hc : c = '\n'
    · subst hc
      refine ⟨splitNlGo rest [], ?_⟩
      rw [splitNlGo, if_pos rfl]
      simp [List.takeWhile_cons]
    · obtain ⟨tail, htail⟩ := ih (c :: cur)
      refine ⟨tail, ?_⟩
      rw [splitNlGo, if_neg hc, htail]
      simp [List.takeWhile_cons, hc]

theorem lines_ne_nil {l : List Char} (hne : l ≠ [])
    (hhead : ∀ c, l.head? = some c → jsWS c = false) :
    (splitNl l).filter (fun ln => !(jsTrim ln).isEmpty) ≠ [] := by
  cases l with
  | nil => exact absurd rfl hne
  | cons c rest =>
    have hc : jsWS c = false := hhead c rfl
    obtain ⟨tail, htail⟩ := splitNlGo_first (c :: rest) []
    rw [splitNl, htail]
    have hcn : ¬(c = '\n') := fun he => by rw [he] at hc; exact absurd hc (by decide)
    rw [List.reverse_nil, List.nil_append, List.takeWhile_cons, if_pos (by simp [hcn])]
    rw [List.filter_cons]
    have hpred : (!(jsTrim (c :: rest.takeWhile fun x => !(x == '\n'))).isEmpty) = true := by
      have hni : jsTrim (c :: rest.takeWhile fun x => !(x == '\n')) ≠ [] := by
        unfold jsTrim
        rw [dropWhile_cons_false hc]
        intro hemp
        have h0 : ((c :: rest.takeWhile fun x => !(x == '\n')).reverse.dropWhile jsWS)
            = [] := by
          have h1 := congrArg List.reverse hemp
          simpa using h1
        have hall := List.dropWhile_eq_nil_iff.mp h0
        have h2 := hall c (by simp)
        rw [hc] at h2
        exact absurd h2 (by simp)
      simpa [List.isEmpty_iff] using hni
    rw [if_pos hpred]
    simp

theorem mkRSection_isSome {i : ℕ} {sec : List Char}
    (h : (splitNl sec).filter (fun ln => !(jsTrim ln).isEmpty) ≠ []) :
    ∃ rs, mkRSection i sec = some rs := by
  cases hl : (splitNl sec).filter (fun ln => !(jsTrim ln).isEmpty) with
  | nil => exact absurd hl h
  | cons l0 rest =>
    simp only [mkRSection, hl]
    split
    · exact ⟨_, rfl⟩
    · exact ⟨_, rfl⟩

theorem formatSuggestions_two_blocks (b1 b2 : String)
    (h1 : goodBlock b1 = true) (h2 : goodBlock b2 = true) :
    formatSuggestions (b1 ++ "\n\n" ++ b2)
      = (mkRSection 0 b1.data).toList ++ (mkRSection 1 b2.data).toList := by
  obtain ⟨hne1, hhead1, hlast1, hsep1, hhash1, hstar1⟩ := goodBlock_spec h1
  obtain ⟨hne2, hhead2, hlast2, hsep2, hhash2, hstar2⟩ := goodBlock_spec h2
  have hdata : (b1 ++ "\n\n" ++ b2).data = b1.data ++ ('\n' :: '\n' :: b2.data) := by
    simp [String.data_append, show ("\n\n" : String).data = ['\n', '\n'] from rfl,
      List.append_assoc]
  have hhash : '#' ∉ b1.data ++ ('\n' :: '\n' :: b2.data) := by
    intro hm
    rcases List.mem_append.mp hm with hm1 | hm1
    · exact hhash1 hm1
    · rcases List.mem_cons.mp hm1 with he | hm2
      · exact absurd he (by decide)
      · rcases List.mem_cons.mp hm2 with he | hm3
        · exact absurd he (by decide)
        · exact hhash2 hm3
  have hstar : '*' ∉ b1.data ++ ('\n' :: '\n' :: b2.data) := by
    intro hm
    rcases List.mem_append.mp hm with hm1 | hm1
    · exact hstar1 hm1
    · rcases List.mem_cons.mp hm1 with he | hm2
      · exact absurd he (by decide)
      · rcases List.mem_cons.mp hm2 with he | hm3
        · exact absurd he (by decide)
        · exact hstar2 hm3
  have htrim : jsTrim (b1.data ++ ('\n' :: '\n' :: b2.data))
      = b1.data ++ ('\n' :: '\n' :: b2.data) := by
    apply jsTrim_id
    · intro c hc
      rw [List.head?_append_of_ne_nil _ hne1] at hc
      exact hhead1 c hc
    · intro c hc
      rw [List.getLast?_append_of_ne_nil _ (by simp)] at hc
      rw [show ('\n' :: '\n' :: b2.data) = ['\n', '\n'] ++ b2.data from rfl,
        List.getLast?_append_of_ne_nil _ hne2] at hc
      exact hlast2 c hc
  have hsplitgo : splitGo (b1.data ++ ('\n' :: '\n' :: b2.data)) []
      = [b1.data, b2.data] := by
    apply split_two_blocks
    · intro i hi
      apply sepLen_append
      · intro he
        have hlen := congrArg List.length he
        rw [List.length_drop, List.length_nil] at hlen
        omega
      · intro c hc
        rw [List.getLast?_drop, if_neg (by omega)] at hc
        exact hlast1 c hc
    · exact hsep1
    · exact hsep2
    · exact hhead2
  have ht1 : jsTrim b1.data = b1.data := jsTrim_id hhead1 hlast1
  have ht2 : jsTrim b2.data = b2.data := jsTrim_id hhead2 hlast2
  have hfm : ∀ (o1 o2 : Option RSection),
      List.filterMap id [o1, o2] = o1.toList ++ o2.toList := by
    intro o1 o2
    rcases o1 <;> rcases o2 <;> simp
  simp only [formatSuggestions]
  rw [hdata, stripHash_id _ hhash, stripBold_id _ hstar, htrim]
  rw [splitSections, hsplitgo]
  have hf : [b1.data, b2.data].filter (fun s => !(jsTrim s).isEmpty)
      = [b1.data, b2.data] := by
    rw [List.filter_cons, if_pos (by simp [ht1, List.isEmpty_iff, hne1]),
      List.filter_cons, if_pos (by simp [ht2, List.isEmpty_iff, hne2]), List.filter_nil]
  rw [hf]
  rw [show List.enum [b1.data, b2.data] = [(0, b1.data), (1, b2.data)] from rfl]
  rw [List.map_cons, List.map_cons, List.map_nil]
  exact hfm _ _

/-- C7: the sectioning function splits on blank-line boundaries: a text of
two blank-line-separated plain blocks yields exactly the two sections
derived from those blocks (so exactly two rendered sections); within a
section the trimmed first surviving line becomes the heading unless it
starts with a bullet marker (`-` or `•`), in which case the heading is the
synthesized "Recommendations N" (N = index + 1, so "Recommendations 1" for
the first section) and all lines are body; the empty input yields the empty
section list, and the function is total, so no input is an error. -/
theorem c7_sectioning (b1 b2 : String)
    (h1 : goodBlock b1 = true) (h2 : goodBlock b2 = true) :
    formatSuggestions (b1 ++ "\n\n" ++ b2)
      = (mkRSection 0 b1.data).toList ++ (mkRSection 1 b2.data).toList
    ∧ (formatSuggestions (b1 ++ "\n\n" ++ b2)).length = 2
    ∧ (∀ (i : ℕ) (sec l0 : List Char) (rest : List (List Char)),
        (splitNl sec).filter (fun ln => !(jsTrim ln).isEmpty) = l0 :: rest →
        (startsBullet (jsTrim l0) = true →
          mkRSection i sec
            = some ⟨"Recommendations " ++ natRepr (i + 1),
                (l0 :: rest).map fun ln => ⟨ln⟩⟩)
        ∧ (startsBullet (jsTrim l0) = false →
          mkRSection i sec = some ⟨⟨jsTrim l0⟩, rest.map fun ln => ⟨ln⟩⟩))
    ∧ formatSuggestions "" = [] := by
  refine ⟨formatSuggestions_two_blocks b1 b2 h1 h2, ?_, ?_, ?_⟩
  · obtain ⟨hne1, hhead1, -, -, -, -⟩ := goodBlock_spec h1
    obtain ⟨hne2, hhead2, -, -, -, -⟩ := goodBlock_spec h2
    obtain ⟨rs1, h01⟩ := mkRSection_isSome (i := 0) (lines_ne_nil hne1 hhead1)
    obtain ⟨rs2, h02⟩ := mkRSection_isSome (i := 1) (lines_ne_nil hne2 hhead2)
    rw [formatSuggestions_two_blocks b1 b2 h1 h2, h01, h02]
    rfl
  · intro i sec l0 rest hl
    constructor
    · intro hb
      simp only [mkRSection, hl]
      rw [if_pos hb]
    · intro hb
      simp only [mkRSection, hl]
      rw [if_neg (by simp [hb])]
  · have h0 : splitGo ([] : List Char) [] = [[]] := by
      rw [splitGo]
      simp [sepLen]
    simp only [formatSuggestions]
    rw [show stripHash [] = [] from by rw [stripHash],
      show stripBold [] = [] from by rw [stripBold], show jsTrim [] = [] from rfl,
      splitSections, h0]
    rfl

theorem c7_sectioning_witness :
    (formatSuggestions ("Heading One\nline a" ++ "\n\n" ++ "- c1\n- c2")).length = 2
    ∧ formatSuggestions "" = [] :=
  ⟨(c7_sectioning "Heading One\nline a" "- c1\n- c2" (by decide) (by decide)).2.1,
   (c7_sectioning "Heading One\nline a" "- c1\n- c2" (by decide) (by decide)).2.2.2⟩
